import Mathlib

/-!
Verification of the youtube-summarizer repository's caption-normalization
and note-assembly logic.

Strings are modelled as `List Char`; a caption file is modelled as the list
of its physical lines (each line without its trailing newline), matching how
both Python sources iterate over lines (`text.splitlines()` in
`yt_to_wisdom_md.srt_to_text`, `for line in f` in
`transcript_fetcher.clean_srt_to_text`).

Python character classes (`\s`, `\d`, `\w`, `str.lower`) are modelled over
their ASCII behaviour.
-/

/-- Coerces a Lean string literal to the `List Char` representation used
throughout this development. -/
def str (s : String) : List Char := s.data

/-- Model of Python's `\s` class / `str.strip` whitespace set (ASCII part):
space, tab, newline, carriage return, vertical tab, form feed. -/
def pyIsSpace (c : Char) : Bool :=
  c = ' ' || c = '\t' || c = '\n' || c = '\r' || c = '\x0b' || c = '\x0c'

/-- Drops the run of characters satisfying `p` at each end of the list
(shared shape of Python `str.strip()` and of `re.sub(r"^-+|-+$", "", s)`). -/
def stripEnds (p : Char → Bool) (l : List Char) : List Char :=
  ((l.dropWhile p).reverse.dropWhile p).reverse

/-- Model of Python `str.strip()`: drop leading and trailing whitespace. -/
def pyStrip (l : List Char) : List Char := stripEnds pyIsSpace l

/-- Model of `re.match(r"^\d+$", line)`: the line is non-empty and consists
solely of (ASCII) digits.  Used for cue-ordinal lines in both pipelines. -/
def cueNumberMatch (l : List Char) : Bool :=
  !l.isEmpty && l.all Char.isDigit

/-- Model of matching the timestamp pattern `\d{2}:\d{2}:\d{2},\d{3}` at the
start of the line (Python `re.match`), as in `yt_to_wisdom_md.srt_to_text`. -/
def timestampAt : List Char → Bool
  | d1 :: d2 :: ':' :: d3 :: d4 :: ':' :: d5 :: d6 :: ',' :: d7 :: d8 :: d9 :: _ =>
      d1.isDigit && d2.isDigit && d3.isDigit && d4.isDigit && d5.isDigit &&
      d6.isDigit && d7.isDigit && d8.isDigit && d9.isDigit
  | _ => false

/-- Model of `timestamp_pattern.search(line)` in
`transcript_fetcher.clean_srt_to_text`: the pattern may occur anywhere. -/
def timestampSearch : List Char → Bool
  | [] => false
  | c :: cs => timestampAt (c :: cs) || timestampSearch cs

/-- Helper for `stripTags`: scanning inside a candidate tag `<...`, with `buf`
holding (reversed) the characters seen since the opening `<`.  On a closing
`>` with a non-empty body the whole tag is dropped, matching the regex
`<[^>]+>`; `<>` has an empty body and is no match, so both characters are
emitted; at end of input an unterminated `<...` is emitted literally. -/
def stripTagsGo : List Char → Option (List Char) → List Char
  | [], none => []
  | [], some buf => '<' :: buf.reverse
  | c :: cs, none =>
      if c = '<' then stripTagsGo cs (some [])
      else c :: stripTagsGo cs none
  | c :: cs, some buf =>
      if c = '>' then
        if buf.isEmpty then '<' :: '>' :: stripTagsGo cs none
        else stripTagsGo cs none
      else stripTagsGo cs (some (c :: buf))

/-- Model of `re.sub(r"<[^>]+>", "", line)`: remove every inline markup tag
(a `<`, one or more non-`>` characters, then `>`), leftmost first. -/
def stripTags (l : List Char) : List Char := stripTagsGo l none

/-- Replaces every maximal run of characters satisfying `p` by the single
character `r` (shared shape of `re.sub(r"\s+", " ", s)` and of
`re.sub(r"[\s_-]+", "-", s)`). -/
def collapseRuns (p : Char → Bool) (r : Char) : List Char → List Char
  | [] => []
  | [c] => if p c then [r] else [c]
  | c :: d :: rest =>
      if p c then
        if p d then collapseRuns p r (d :: rest)
        else r :: collapseRuns p r (d :: rest)
      else c :: collapseRuns p r (d :: rest)

/-- Model of `re.sub(r"\s+", " ", s)`: collapse every maximal run of
whitespace characters to a single space. -/
def collapseWs (l : List Char) : List Char := collapseRuns pyIsSpace ' ' l

/-- Model of Python `sep.join(parts)`. -/
def joinWith (sep : List Char) : List (List Char) → List Char
  | [] => []
  | [x] => x
  | x :: y :: rest => x ++ sep ++ joinWith sep (y :: rest)

/-- Line filter of `transcript_fetcher.clean_srt_to_text`: strip the line;
drop it if empty, a cue number, or containing the timestamp pattern anywhere;
otherwise strip HTML tags and keep it. -/
def cleanKeepLine (line : List Char) : Option (List Char) :=
  let l := pyStrip line
  if l.isEmpty then none
  else if cueNumberMatch l then none
  else if timestampSearch l then none
  else some (stripTags l)

/-- Model of `transcript_fetcher.clean_srt_to_text`: filter the lines, join
with single spaces, collapse whitespace runs, and strip the ends. -/
def clean_srt_to_text (lines : List (List Char)) : List Char :=
  pyStrip (collapseWs (joinWith [' '] (lines.filterMap cleanKeepLine)))

/-- Line filter of `yt_to_wisdom_md.srt_to_text`: drop cue-number lines,
lines starting with the timestamp pattern, and blank lines; keep the stripped
text of every other line (no markup stripping). -/
def srtKeepLine (line : List Char) : Option (List Char) :=
  if cueNumberMatch (pyStrip line) then none
  else if timestampAt (pyStrip line) then none
  else if (pyStrip line).isEmpty then none
  else some (pyStrip line)

/-- Model of `yt_to_wisdom_md.srt_to_text`: filter the lines and join the
kept ones with newlines. -/
def srt_to_text (lines : List (List Char)) : List Char :=
  joinWith ['\n'] (lines.filterMap srtKeepLine)

/-- Model of Python's `\w` class (ASCII part): letters, digits, underscore. -/
def isWordChar (c : Char) : Bool := c.isAlphanum || c = '_'

/-- Character class `[\s_-]` of `yt_to_wisdom_md.slugify`'s third regex. -/
def dashClass (c : Char) : Bool := pyIsSpace c || c = '_' || c = '-'

/-- Model of `re.sub(r"[\s_-]+", "-", s)`: collapse every maximal run of
whitespace/underscore/hyphen characters to a single hyphen. -/
def collapseDash (l : List Char) : List Char := collapseRuns dashClass '-' l

/-- Character class `[^\w\s-]` complement used by `yt_to_wisdom_md.slugify`'s
second regex: the characters it keeps. -/
def slugClass (c : Char) : Bool := isWordChar c || pyIsSpace c || c = '-'

/-- Model of `re.sub(r"^-+|-+$", "", s)`: remove the leading and trailing
runs of hyphens. -/
def stripDashes (l : List Char) : List Char := stripEnds (fun c => c = '-') l

/-- Model of `yt_to_wisdom_md.slugify`: lowercase and trim, remove
non-word/space/hyphen characters, collapse whitespace/underscore/hyphen runs
to single hyphens, strip edge hyphens, and fall back to `"video"` when the
result is empty. -/
def slugify (text : List Char) : List Char :=
  let t1 := (pyStrip text).map Char.toLower
  let t2 := t1.filter slugClass
  let t3 := collapseDash t2
  let t4 := stripDashes t3
  if t4.isEmpty then str "video" else t4

/-- Numeric value of a digit string (how `datetime.strptime` reads the
year/month/day groups). -/
def natOfDigits (l : List Char) : Nat :=
  l.foldl (fun acc c => acc * 10 + (c.toNat - '0'.toNat)) 0

/-- Gregorian leap-year rule used by Python's `datetime`. -/
def isLeapYear (y : Nat) : Bool :=
  y % 4 = 0 && (y % 100 != 0 || y % 400 = 0)

/-- Number of days of month `m` in year `y` (Python `calendar`/`datetime`). -/
def daysInMonth (y m : Nat) : Nat :=
  if m = 2 then (if isLeapYear y then 29 else 28)
  else if m = 4 || m = 6 || m = 9 || m = 11 then 30
  else 31

/-- Calendar validation performed by `datetime.strptime(s, "%Y%m%d")`:
years 1..9999 (`datetime.MINYEAR`/`MAXYEAR`), months 1..12, days within the
month; anything else raises `ValueError` in Python. -/
def validDate (y m d : Nat) : Bool :=
  1 ≤ y && y ≤ 9999 && 1 ≤ m && m ≤ 12 && 1 ≤ d && d ≤ daysInMonth y m

/-- Zero-padded decimal rendering of width `w` (how `date.isoformat` prints
each component). -/
def padNat (w n : Nat) : List Char :=
  let s := (toString n).data
  List.replicate (w - s.length) '0' ++ s

/-- Rendering of `datetime.date(y, m, d).isoformat()`: `YYYY-MM-DD`. -/
def isoDate (y m d : Nat) : List Char :=
  padNat 4 y ++ '-' :: (padNat 2 m ++ '-' :: padNat 2 d)

/-- Model of `yt_to_wisdom_md.normalize_date`: falsy input gives `none`;
exactly eight digits are parsed as `YYYYMMDD` and re-rendered as
`YYYY-MM-DD` when they form a valid calendar date, with `none` on a
`ValueError`; any other string passes through unchanged. -/
def normalize_date (yt_date : Option (List Char)) : Option (List Char) :=
  match yt_date with
  | none => none
  | some s =>
      if s.isEmpty then none
      else if s.length = 8 && s.all Char.isDigit then
        let y := natOfDigits (s.take 4)
        let m := natOfDigits ((s.drop 4).take 2)
        let d := natOfDigits (s.drop 6)
        if validDate y m d then some (isoDate y m d) else none
      else some s

/-- Lowercase hexadecimal digit, for `json.dumps` control-character escapes. -/
def hexDigit (n : Nat) : Char :=
  if n < 10 then Char.ofNat ('0'.toNat + n) else Char.ofNat ('a'.toNat + (n - 10))

/-- Escape of a single character inside a `json.dumps` string literal with
`ensure_ascii=False`: quote, backslash and the named control characters get
backslash escapes, other control characters a `\u00XX` escape, and everything
else (ASCII or not) passes through. -/
def jsonEscChar (c : Char) : List Char :=
  if c = '"' then ['\\', '"']
  else if c = '\\' then ['\\', '\\']
  else if c = '\n' then ['\\', 'n']
  else if c = '\t' then ['\\', 't']
  else if c = '\r' then ['\\', 'r']
  else if c = '\x08' then ['\\', 'b']
  else if c = '\x0c' then ['\\', 'f']
  else if c.toNat < 0x20 then
    ['\\', 'u', '0', '0', hexDigit (c.toNat / 16), hexDigit (c.toNat % 16)]
  else [c]

/-- Model of `yt_to_wisdom_md.yaml_str`, i.e. `json.dumps(value,
ensure_ascii=False)` applied to a string value. -/
def yaml_str (s : List Char) : List Char :=
  '"' :: (s.flatMap jsonEscChar ++ ['"'])

/-- Subtitle file on disk as the provider leaves it: name, content (as
lines), and modification time.  `st_mtime` is modelled as an integer. -/
structure SrtFile where
  name : List Char
  content : List (List Char)
  mtime : Int
deriving DecidableEq

/-- Metadata record returned by the provider (`yt-dlp -J` JSON), restricted
to the fields `yt_to_wisdom_md.main` reads.  `none` models an absent key. -/
structure Meta where
  title : Option (List Char) := none
  uploader : Option (List Char) := none
  channel : Option (List Char) := none
  upload_date : Option (List Char) := none
  duration : Option Int := none
  tags : Option (List (List Char)) := none
  description : Option (List Char) := none
  webpage_url : Option (List Char) := none
  language : Option (List Char) := none
  id : Option (List Char) := none

/-- Python `a or default` for an optional string: an absent or empty string
is falsy and yields the default. -/
def pyOr (o : Option (List Char)) (d : List Char) : List Char :=
  match o with
  | some s => if s.isEmpty then d else s
  | none => d

/-- Python `a or b` for two optional strings (used for
`meta.get("uploader") or meta.get("channel")`). -/
def pyOrOpt (a b : Option (List Char)) : Option (List Char) :=
  match a with
  | some s => if s.isEmpty then b else some s
  | none => b

/-- Python truthiness of an optional string (`if source_date`). -/
def pyTruthyOpt (o : Option (List Char)) : Bool :=
  match o with
  | some s => !s.isEmpty
  | none => false

/-- Caption-file choice of `yt_to_wisdom_md.main`: `srt_files[0]`, the first
file in the order the filesystem glob returned (`none` when the glob is
empty). -/
def ytSelectSrt (files : List SrtFile) : Option SrtFile := files.head?

/-- Model of Python `max(iterable, key=...)` over subtitle files: fold that
replaces the current best only on a strictly greater key, so the first
maximum wins ties, exactly as Python's `max`. -/
def pyMaxBy (key : SrtFile → Int) : SrtFile → List SrtFile → SrtFile
  | best, [] => best
  | best, x :: xs => pyMaxBy key (if key x > key best then x else best) xs

/-- Caption-file choice of `transcript_fetcher.download_and_process`:
`max(srt_files, key=lambda p: p.stat().st_mtime)` — the most recently
modified file (`none` when the glob is empty). -/
def mostRecentSrt : List SrtFile → Option SrtFile
  | [] => none
  | f :: fs => some (pyMaxBy (fun p => p.mtime) f fs)

/-- Resolution `meta.get("title") or "Untitled"` in `yt_to_wisdom_md.main`. -/
def resolveTitle (meta : Meta) : List Char := pyOr meta.title (str "Untitled")

/-- Transcript and quality resolution of `yt_to_wisdom_md.main`: with no
subtitle file the transcript is empty and quality `"none"`; otherwise
`srt_to_text(srt_files[0])` with quality `"auto"`. -/
def ytTranscript (files : List SrtFile) : List Char × List Char :=
  match ytSelectSrt files with
  | none => ([], str "none")
  | some f => (srt_to_text f.content, str "auto")

/-- Text piped to the summarizer:
`f"INPUT:\n\n{title}\n\n{transcript_text}"`. -/
def fabricInput (title transcript : List Char) : List Char :=
  str "INPUT:\n\n" ++ title ++ str "\n\n" ++ transcript

/-- Front-matter line `f"{key}: {value}"`. -/
def mkField (k v : List Char) : List Char := k ++ ':' :: ' ' :: v

/-- Decimal rendering of the integer interpolated by `f"{duration}"`. -/
def intChars (i : Int) : List Char := (toString i).data

/-- Front-matter and body lines (`md_lines`) built by
`yt_to_wisdom_md.main`, in order. -/
def ytNoteLines (title webpage_url created : List Char)
    (source_date : Option (List Char)) (duration : Option Int)
    (language uploader : List Char) (tags : List (List Char))
    (short_desc transcript_quality body : List Char) : List (List Char) :=
  [str "---",
   mkField (str "title") (yaml_str title),
   mkField (str "source_type") (yaml_str (str "youtube_podcast")),
   mkField (str "original_url") (yaml_str webpage_url),
   mkField (str "created") (yaml_str created),
   mkField (str "source_date")
     (if pyTruthyOpt source_date then yaml_str (source_date.getD []) else str "null"),
   mkField (str "duration_seconds")
     (match duration with | some d => intChars d | none => str "null"),
   mkField (str "language") (yaml_str language),
   mkField (str "uploader") (yaml_str uploader),
   str "people: []",
   str "topics:"]
  ++ (if tags.isEmpty then [str "  - \"youtube\""]
      else tags.map (fun tag => str "  - " ++ yaml_str tag))
  ++ [str "tags:",
      str "  - \"YouTube\"",
      mkField (str "description") (yaml_str short_desc),
      mkField (str "transcript_source") (yaml_str (str "yt-dlp")),
      mkField (str "transcript_quality") (yaml_str transcript_quality),
      str "---",
      str "",
      body]

/-- First line of the stripped description, truncated to 280 characters:
`description.strip().split("\n")[0][:280]`. -/
def shortDesc (description : List Char) : List Char :=
  ((pyStrip description).takeWhile (fun c => c != '\n')).take 280

/-- Model of `yt_to_wisdom_md.main` after the provider calls succeeded:
`srtFiles` is the glob result in filesystem order, `today` the current date
string, and `summarize` the opaque `fabric` invocation (an `Except` models
`run`'s possible `CalledProcessError`).  On success the returned pair is the
note's file name and its lines (`md_lines`); the single whole-buffer write of
the note happens only then, so an error result means no note file. -/
def yt_main (meta : Meta) (url : List Char) (today : List Char)
    (srtFiles : List SrtFile)
    (summarize : List Char → Except (List Char) (List Char)) :
    Except (List Char) (List Char × List (List Char)) :=
  let title := resolveTitle meta
  let uploader := pyOr (pyOrOpt meta.uploader meta.channel) (str "Unknown")
  let source_date := normalize_date meta.upload_date
  let tags := meta.tags.getD []
  let description := pyOr meta.description []
  let webpage_url := pyOr meta.webpage_url url
  let language := pyOr meta.language (str "en")
  match summarize (fabricInput title (ytTranscript srtFiles).1) with
  | .error e => .error e
  | .ok body =>
      .ok (today ++ str "--" ++ slugify title ++ str ".md",
           ytNoteLines title webpage_url today source_date meta.duration
             language uploader tags (shortDesc description)
             (ytTranscript srtFiles).2 body)

/-- Title sanitization of `transcript_fetcher.download_and_process`:
`re.sub(r"[^\w\-. ]", "_", title).strip()`. -/
def safeTitle (title : List Char) : List Char :=
  pyStrip (title.map (fun c =>
    if isWordChar c || c = '-' || c = '.' || c = ' ' then c else '_'))

/-- Model of `transcript_fetcher.download_and_process` after the provider
call: a falsy title raises, an empty glob result raises
`FileNotFoundError`, otherwise the most recently modified subtitle file is
cleaned and the pair (text file name, text content) is written.  An error
result means no text artifact is produced. -/
def download_and_process (title : Option (List Char))
    (srtFiles : List SrtFile) : Except (List Char) (List Char × List Char) :=
  if !pyTruthyOpt title then .error (str "Could not extract video title.")
  else
    match mostRecentSrt srtFiles with
    | none => .error (str "No English SRT subtitle file found.")
    | some srt =>
        .ok (safeTitle (title.getD []) ++ str ".txt",
             clean_srt_to_text srt.content)

/-- Key of a physical front-matter line: `none` for indented list items,
otherwise the text before the first colon. -/
def lineKey : List Char → Option (List Char)
  | [] => none
  | c :: cs => if c = ' ' then none else some ((c :: cs).takeWhile (fun x => x != ':'))

/-- Keys of the front-matter block of a note: the lines after the opening
`---` delimiter and before the closing one, indented list items skipped. -/
def frontKeys (lines : List (List Char)) : List (List Char) :=
  ((lines.drop 1).takeWhile (fun l => l != str "---")).filterMap lineKey

/-- Projection: is an `Except` result a success? -/
def exOk {ε α : Type} : Except ε α → Bool
  | .ok _ => true
  | .error _ => false

/-- Note lines of a successful `yt_main` run (empty list on error). -/
def noteLinesOf : Except (List Char) (List Char × List (List Char)) → List (List Char)
  | .ok r => r.2
  | .error _ => []

/-- Caption file of the spec's end-to-end scenario: two cues whose text
lines are `Hello world` and `<i>Goodbye</i>`. -/
def twoCueInput : List (List Char) :=
  [str "1", str "00:00:00,000 --> 00:00:02,000", str "Hello world", str "",
   str "2", str "00:00:02,000 --> 00:00:04,000", str "<i>Goodbye</i>"]

/-- Older subtitle file left by the provider (modification time 1). -/
def srtA : SrtFile := ⟨str "a.en.srt", [str "alpha"], 1⟩

/-- Newer subtitle file left by the provider (modification time 2). -/
def srtB : SrtFile := ⟨str "b.en.srt", [str "beta"], 2⟩

/-- Metadata record with every field absent, for concrete runs. -/
def metaW : Meta := {}

/-- Summarizer stub that always succeeds with body `B`. -/
def summOk : List Char → Except (List Char) (List Char) :=
  fun _ => Except.ok (str "B")

/-- Summarizer stub that always fails (non-zero exit of the `fabric`
subprocess). -/
def summErr : List Char → Except (List Char) (List Char) :=
  fun _ => Except.error (str "boom")

/-! Generic lemmas about `List.dropWhile`, `stripEnds` and `collapseRuns`. -/

theorem head_dropWhile_not (p : Char → Bool) (l : List Char) (c : Char)
    (h : (l.dropWhile p).head? = some c) : p c = false := by
  induction l with
  | nil => simp at h
  | cons a as ih =>
    rw [List.dropWhile_cons] at h
    by_cases ha : p a
    · rw [if_pos ha] at h; exact ih h
    · rw [if_neg ha] at h
      simp at h
      rw [← h]
      simpa using ha

theorem dropWhile_eq_self_of_head (p : Char → Bool) (l : List Char)
    (h : ∀ c, l.head? = some c → p c = false) : l.dropWhile p = l := by
  cases l with
  | nil => rfl
  | cons a as =>
    rw [List.dropWhile_cons, if_neg]
    simp [h a rfl]

theorem dropWhile_idem (p : Char → Bool) (l : List Char) :
    (l.dropWhile p).dropWhile p = l.dropWhile p := by
  apply dropWhile_eq_self_of_head
  intro c hc
  exact head_dropWhile_not p l c hc

theorem stripEnds_eq_self (p : Char → Bool) (l : List Char)
    (h : ∀ c ∈ l, p c = false) : stripEnds p l = l := by
  unfold stripEnds
  rw [dropWhile_eq_self_of_head p l (fun c hc => h c (by cases l with
        | nil => simp at hc
        | cons a as => simp at hc; simp [hc]))]
  rw [dropWhile_eq_self_of_head p l.reverse (fun c hc => h c (by
        have : c ∈ l.reverse := by
          cases hr : l.reverse with
          | nil => rw [hr] at hc; simp at hc
          | cons a as => rw [hr] at hc; simp at hc; simp [hc]
        simpa using this))]
  exact l.reverse_reverse

theorem mem_stripEnds (p : Char → Bool) (l : List Char) (c : Char)
    (h : c ∈ stripEnds p l) : c ∈ l := by
  unfold stripEnds at h
  rw [List.mem_reverse] at h
  have h1 := (List.dropWhile_suffix (l := (l.dropWhile p).reverse) p).subset h
  rw [List.mem_reverse] at h1
  exact (List.dropWhile_suffix p).subset h1

theorem stripEnds_head_not (p : Char → Bool) (l : List Char) (c : Char)
    (h : (stripEnds p l).head? = some c) : p c = false := by
  unfold stripEnds at h
  have hpre : ((l.dropWhile p).reverse.dropWhile p).reverse <+: l.dropWhile p := by
    have := List.dropWhile_suffix (l := (l.dropWhile p).reverse) p
    have h2 := this.reverse
    rwa [List.reverse_reverse] at h2
  obtain ⟨t, ht⟩ := hpre
  apply head_dropWhile_not p l c
  rw [← ht]
  cases hs : ((l.dropWhile p).reverse.dropWhile p).reverse with
  | nil => rw [hs] at h; simp at h
  | cons a as =>
    rw [hs] at h
    simp at h
    simp [h]

theorem stripEnds_idem (p : Char → Bool) (l : List Char) :
    stripEnds p (stripEnds p l) = stripEnds p l := by
  have h1 : (stripEnds p l).dropWhile p = stripEnds p l :=
    dropWhile_eq_self_of_head p _ (stripEnds_head_not p l)
  show ((((stripEnds p l).dropWhile p).reverse.dropWhile p)).reverse = stripEnds p l
  rw [h1]
  unfold stripEnds
  rw [List.reverse_reverse, dropWhile_idem]

/-- Adjacency invariant: no two consecutive characters of the list both
satisfy `p`. -/
def noTwo (p : Char → Bool) (l : List Char) : Prop :=
  l.Chain' (fun a b => ¬(p a = true ∧ p b = true))

theorem noTwo_nil (p : Char → Bool) : noTwo p [] := List.chain'_nil

theorem noTwo_cons (p : Char → Bool) (a : Char) (l : List Char) :
    noTwo p (a :: l) ↔ (∀ b ∈ l.head?, ¬(p a = true ∧ p b = true)) ∧ noTwo p l :=
  List.chain'_cons'

theorem noTwo_of_suffix (p : Char → Bool) (l l' : List Char)
    (hs : l' <:+ l) (h : noTwo p l) : noTwo p l' :=
  List.Chain'.suffix h hs

theorem noTwo_reverse (p : Char → Bool) (l : List Char)
    (h : noTwo p l) : noTwo p l.reverse := by
  rw [noTwo, List.chain'_reverse]
  exact List.Chain'.imp (fun a b hab hc => hab ⟨hc.2, hc.1⟩) h

theorem noTwo_stripEnds (p q : Char → Bool) (l : List Char)
    (h : noTwo p l) : noTwo p (stripEnds q l) := by
  unfold stripEnds
  apply noTwo_reverse
  apply noTwo_of_suffix p _ _ (List.dropWhile_suffix q)
  apply noTwo_reverse
  exact noTwo_of_suffix p _ _ (List.dropWhile_suffix q) h

theorem collapseRuns_head (p : Char → Bool) (r : Char) (l : List Char) (c : Char)
    (h : l.head? = some c) (hc : p c = false) :
    (collapseRuns p r l).head? = some c := by
  cases l with
  | nil => simp at h
  | cons a as =>
    simp at h
    subst h
    cases as with
    | nil => simp [collapseRuns, hc]
    | cons d rest => simp [collapseRuns, hc]

theorem mem_collapseRuns (p : Char → Bool) (r : Char) (l : List Char) (c : Char)
    (h : c ∈ collapseRuns p r l) : c = r ∨ (c ∈ l ∧ p c = false) := by
  induction l with
  | nil => simp [collapseRuns] at h
  | cons a as ih =>
    cases as with
    | nil =>
      by_cases ha : p a
      · simp [collapseRuns, ha] at h; exact Or.inl h
      · simp [collapseRuns, ha] at h
        subst h
        exact Or.inr ⟨by simp, by simpa using ha⟩
    | cons d rest =>
      by_cases ha : p a
      · by_cases hd : p d
        · simp only [collapseRuns, if_pos ha, if_pos hd] at h
          rcases ih h with h1 | h1
          · exact Or.inl h1
          · exact Or.inr ⟨List.mem_cons_of_mem a h1.1, h1.2⟩
        · simp only [collapseRuns, if_pos ha, if_neg hd] at h
          rcases List.mem_cons.mp h with h1 | h1
          · exact Or.inl h1
          · rcases ih h1 with h2 | h2
            · exact Or.inl h2
            · exact Or.inr ⟨List.mem_cons_of_mem a h2.1, h2.2⟩
      · simp only [collapseRuns, if_neg ha] at h
        rcases List.mem_cons.mp h with h1 | h1
        · subst h1; exact Or.inr ⟨by simp, by simpa using ha⟩
        · rcases ih h1 with h2 | h2
          · exact Or.inl h2
          · exact Or.inr ⟨List.mem_cons_of_mem a h2.1, h2.2⟩

theorem noTwo_collapseRuns (p : Char → Bool) (r : Char) (l : List Char) :
    noTwo p (collapseRuns p r l) := by
  induction l with
  | nil => exact noTwo_nil p
  | cons a as ih =>
    cases as with
    | nil =>
      by_cases ha : p a
      · simp [collapseRuns, ha, noTwo]
      · simp [collapseRuns, ha, noTwo]
    | cons d rest =>
      by_cases ha : p a
      · by_cases hd : p d
        · simpa only [collapseRuns, if_pos ha, if_pos hd] using ih
        · rw [collapseRuns, if_pos ha, if_neg hd]
          rw [noTwo_cons]
          refine ⟨?_, ih⟩
          intro b hb
          have hb2 := collapseRuns_head p r (d :: rest) d rfl (by simpa using hd)
          rw [hb2] at hb
          simp at hb
          subst hb
          intro hcon
          simp [hd] at hcon
      · rw [collapseRuns, if_neg ha]
        rw [noTwo_cons]
        refine ⟨?_, ih⟩
        intro b _ hcon
        simp [ha] at hcon

theorem collapseRuns_eq_self (p : Char → Bool) (r : Char) (l : List Char)
    (hmem : ∀ c ∈ l, p c = true → c = r) (hch : noTwo p l) :
    collapseRuns p r l = l := by
  induction l with
  | nil => rfl
  | cons a as ih =>
    cases as with
    | nil =>
      by_cases ha : p a
      · simp [collapseRuns, ha, hmem a (by simp) ha]
      · simp [collapseRuns, ha]
    | cons d rest =>
      rw [noTwo_cons] at hch
      have ihr := ih (fun c hc hpc => hmem c (List.mem_cons_of_mem a hc) hpc) hch.2
      by_cases ha : p a
      · have hd : p d = false := by
          by_contra hcon
          exact (hch.1 d rfl) ⟨ha, by simpa using hcon⟩
        rw [collapseRuns, if_pos ha, if_neg (by simp [hd])]
        rw [ihr, hmem a (by simp) ha]
      · rw [collapseRuns, if_neg ha, ihr]

theorem char_toNat_ofNat (n : Nat) (h : n < 55296) : (Char.ofNat n).toNat = n := by
  have hv : Nat.isValidChar n := Or.inl h
  simp only [Char.ofNat, hv, dif_pos]
  rfl

theorem toLower_idem (c : Char) : Char.toLower (Char.toLower c) = Char.toLower c := by
  unfold Char.toLower
  by_cases h : c.toNat ≥ 65 ∧ c.toNat ≤ 90
  · rw [if_pos h]
    have h2 : (Char.ofNat (c.toNat + 32)).toNat = c.toNat + 32 :=
      char_toNat_ofNat _ (by omega)
    simp only [h2]
    rw [if_neg (by omega)]
  · rw [if_neg h, if_neg h]

theorem map_eq_self_of (f : Char → Char) (l : List Char)
    (h : ∀ c ∈ l, f c = c) : l.map f = l := by
  induction l with
  | nil => rfl
  | cons a as ih =>
    simp only [List.map_cons, h a (by simp), ih (fun c hc => h c (List.mem_cons_of_mem a hc))]

theorem slugify_fixes_output (s : List Char) : slugify (slugify s) = slugify s := by
  simp only [slugify]
  by_cases h : (stripDashes (collapseDash (((pyStrip s).map Char.toLower).filter slugClass))).isEmpty
  · rw [if_pos h]
    decide
  · rw [if_neg h]
    have hE3 : ∀ c ∈ stripDashes (collapseDash (((pyStrip s).map Char.toLower).filter slugClass)),
        c = '-' ∨ (c ∈ ((pyStrip s).map Char.toLower).filter slugClass ∧ dashClass c = false) := by
      intro c hc
      exact mem_collapseRuns dashClass '-' _ c (mem_stripEnds _ _ c hc)
    set E := stripDashes (collapseDash (((pyStrip s).map Char.toLower).filter slugClass)) with hEdef
    have hsp : ∀ c ∈ E, pyIsSpace c = false := by
      intro c hc
      rcases hE3 c hc with h1 | h1
      · subst h1; decide
      · have hd := h1.2
        simp only [dashClass, Bool.or_eq_false_iff] at hd
        exact hd.1.1
    have hlow : ∀ c ∈ E, Char.toLower c = c := by
      intro c hc
      rcases hE3 c hc with h1 | h1
      · subst h1; decide
      · have hm := (List.mem_filter.mp h1.1).1
        obtain ⟨a, _, ha⟩ := List.mem_map.mp hm
        rw [← ha]
        exact toLower_idem a
    have hcls : ∀ c ∈ E, slugClass c = true := by
      intro c hc
      rcases hE3 c hc with h1 | h1
      · subst h1; decide
      · exact (List.mem_filter.mp h1.1).2
    have hdash : ∀ c ∈ E, dashClass c = true → c = '-' := by
      intro c hc hd
      rcases hE3 c hc with h1 | h1
      · exact h1
      · rw [h1.2] at hd; cases hd
    have step1 : pyStrip E = E := stripEnds_eq_self pyIsSpace E hsp
    have step2 : E.map Char.toLower = E := map_eq_self_of Char.toLower E hlow
    have step3 : E.filter slugClass = E := List.filter_eq_self.mpr hcls
    have step4 : collapseDash E = E :=
      collapseRuns_eq_self dashClass '-' E hdash
        (noTwo_stripEnds dashClass _ _ (noTwo_collapseRuns dashClass '-' _))
    have step5 : stripDashes E = E := by
      rw [hEdef]
      exact stripEnds_idem _ _
    rw [step1, step2, step3, step4, step5, if_neg h]

theorem flatten_refeed (lines : List (List Char))
    (h1 : cueNumberMatch (clean_srt_to_text lines) = false)
    (h2 : timestampSearch (clean_srt_to_text lines) = false)
    (h3 : stripTags (clean_srt_to_text lines) = clean_srt_to_text lines) :
    clean_srt_to_text [clean_srt_to_text lines] = clean_srt_to_text lines := by
  set s := clean_srt_to_text lines with hs
  have hstrip : pyStrip s = s := by
    rw [hs]
    unfold clean_srt_to_text pyStrip
    exact stripEnds_idem _ _
  have hmem : ∀ c ∈ s, pyIsSpace c = true → c = ' ' := by
    intro c hc hp
    rw [hs] at hc
    unfold clean_srt_to_text pyStrip at hc
    have hc2 := mem_stripEnds pyIsSpace _ c hc
    unfold collapseWs at hc2
    rcases mem_collapseRuns pyIsSpace ' ' _ c hc2 with he | he
    · exact he
    · rw [he.2] at hp; cases hp
  have hchain : noTwo pyIsSpace s := by
    rw [hs]
    unfold clean_srt_to_text pyStrip collapseWs
    exact noTwo_stripEnds _ _ _ (noTwo_collapseRuns pyIsSpace ' ' _)
  by_cases hemp : s.isEmpty
  · have hnil : s = [] := by
      rwa [List.isEmpty_iff] at hemp
    rw [hnil]
    decide
  · have hkeep : cleanKeepLine s = some s := by
      simp only [cleanKeepLine, hstrip]
      rw [if_neg hemp, if_neg (by simp [h1]), if_neg (by simp [h2]), h3]
    show pyStrip (collapseWs (joinWith [' '] (List.filterMap cleanKeepLine [s]))) = s
    rw [List.filterMap_cons, hkeep]
    show pyStrip (collapseWs (joinWith [' '] [s])) = s
    have hjoin : joinWith [' '] [s] = s := rfl
    rw [hjoin]
    unfold collapseWs
    rw [collapseRuns_eq_self pyIsSpace ' ' s hmem hchain, hstrip]

theorem pyMaxBy_ge (key : SrtFile → Int) (fs : List SrtFile) (best : SrtFile) :
    key best ≤ key (pyMaxBy key best fs) ∧
      ∀ g ∈ fs, key g ≤ key (pyMaxBy key best fs) := by
  induction fs generalizing best with
  | nil => exact ⟨le_refl _, by simp⟩
  | cons x xs ih =>
    simp only [pyMaxBy]
    by_cases hx : key x > key best
    · rw [if_pos hx]
      obtain ⟨ha, hb⟩ := ih x
      refine ⟨le_trans (le_of_lt hx) ha, ?_⟩
      intro g hg
      rcases List.mem_cons.mp hg with h | h
      · rw [h]; exact ha
      · exact hb g h
    · rw [if_neg hx]
      obtain ⟨ha, hb⟩ := ih best
      refine ⟨ha, ?_⟩
      intro g hg
      rcases List.mem_cons.mp hg with h | h
      · rw [h]; exact le_trans (le_of_not_lt hx) ha
      · exact hb g h

theorem pyMaxBy_mem (key : SrtFile → Int) (fs : List SrtFile) (best : SrtFile) :
    pyMaxBy key best fs = best ∨ pyMaxBy key best fs ∈ fs := by
  induction fs generalizing best with
  | nil => exact Or.inl rfl
  | cons x xs ih =>
    simp only [pyMaxBy]
    by_cases hx : key x > key best
    · rw [if_pos hx]
      rcases ih x with h | h
      · exact Or.inr (by rw [h]; exact List.mem_cons_self x xs)
      · exact Or.inr (List.mem_cons_of_mem x h)
    · rw [if_neg hx]
      rcases ih best with h | h
      · exact Or.inl h
      · exact Or.inr (List.mem_cons_of_mem x h)

theorem takeWhile_colon (k rest : List Char) (hk : ∀ c ∈ k, (c != ':') = true) :
    (k ++ ':' :: rest).takeWhile (fun x => x != ':') = k := by
  induction k with
  | nil => simp [List.takeWhile_cons]
  | cons a as ih =>
    rw [List.cons_append, List.takeWhile_cons, if_pos (hk a (by simp)),
        ih (fun c hc => hk c (List.mem_cons_of_mem a hc))]

theorem lineKey_mkField (k v : List Char) (hne : k ≠ [])
    (hsp : k.head? ≠ some ' ') (hcol : ∀ c ∈ k, (c != ':') = true) :
    lineKey (mkField k v) = some k := by
  cases k with
  | nil => exact absurd rfl hne
  | cons a as =>
    have ha : ¬(a = ' ') := fun h => hsp (by simp [h])
    show lineKey ((a :: as) ++ ':' :: ' ' :: v) = some (a :: as)
    rw [List.cons_append]
    simp only [lineKey]
    rw [if_neg ha, ← List.cons_append, takeWhile_colon (a :: as) (' ' :: v) hcol]

theorem lineKey_indent (rest x : List Char) : lineKey ((' ' :: rest) ++ x) = none := by
  rw [List.cons_append]
  simp [lineKey]

theorem mkField_keep (k v : List Char) : (mkField k v != str "---") = true := by
  rw [bne_iff_ne]
  intro h
  have hmem : ':' ∈ mkField k v := by simp [mkField]
  rw [h] at hmem
  exact absurd hmem (by decide)

theorem indent_keep (rest x : List Char) : (((' ' :: rest) ++ x) != str "---") = true := by
  rw [bne_iff_ne]
  intro h
  have h0 : ((' ' :: rest) ++ x).head? = some ' ' := by rw [List.cons_append]; rfl
  rw [h] at h0
  exact absurd h0 (by decide)

theorem lineKey_topicItem (x : List Char) : lineKey (str "  - " ++ x) = none := by
  have h0 : str "  - " = ' ' :: str " - " := rfl
  rw [h0, lineKey_indent]

theorem topicItem_keep (x : List Char) : ((str "  - " ++ x) != str "---") = true := by
  have h0 : str "  - " = ' ' :: str " - " := rfl
  rw [h0, indent_keep]

theorem filterMap_topicItems (tags : List (List Char)) :
    List.filterMap lineKey (tags.map (fun tag => str "  - " ++ yaml_str tag)) = [] := by
  induction tags with
  | nil => rfl
  | cons t ts ih =>
    rw [List.map_cons, List.filterMap_cons, lineKey_topicItem, ih]

theorem frontKeys_ytNoteLines (title webpage_url created : List Char)
    (source_date : Option (List Char)) (duration : Option Int)
    (language uploader : List Char) (tags : List (List Char))
    (short_desc transcript_quality body : List Char) :
    frontKeys (ytNoteLines title webpage_url created source_date duration
      language uploader tags short_desc transcript_quality body) =
    [str "title", str "source_type", str "original_url", str "created",
     str "source_date", str "duration_seconds", str "language", str "uploader",
     str "people", str "topics", str "tags", str "description",
     str "transcript_source", str "transcript_quality"] := by
  have kTitle : lineKey (mkField (str "title") (yaml_str title)) = some (str "title") :=
    lineKey_mkField _ _ (by decide) (by decide) (by decide)
  have kSrcTy : lineKey (mkField (str "source_type") (yaml_str (str "youtube_podcast"))) =
      some (str "source_type") := lineKey_mkField _ _ (by decide) (by decide) (by decide)
  have kUrl : lineKey (mkField (str "original_url") (yaml_str webpage_url)) =
      some (str "original_url") := lineKey_mkField _ _ (by decide) (by decide) (by decide)
  have kCreated : lineKey (mkField (str "created") (yaml_str created)) =
      some (str "created") := lineKey_mkField _ _ (by decide) (by decide) (by decide)
  have kSrcDate : lineKey (mkField (str "source_date")
      (if pyTruthyOpt source_date then yaml_str (source_date.getD []) else str "null")) =
      some (str "source_date") := lineKey_mkField _ _ (by decide) (by decide) (by decide)
  have kDur : lineKey (mkField (str "duration_seconds")
      (match duration with | some d => intChars d | none => str "null")) =
      some (str "duration_seconds") := lineKey_mkField _ _ (by decide) (by decide) (by decide)
  have kLang : lineKey (mkField (str "language") (yaml_str language)) =
      some (str "language") := lineKey_mkField _ _ (by decide) (by decide) (by decide)
  have kUp : lineKey (mkField (str "uploader") (yaml_str uploader)) =
      some (str "uploader") := lineKey_mkField _ _ (by decide) (by decide) (by decide)
  have kDesc : lineKey (mkField (str "description") (yaml_str short_desc)) =
      some (str "description") := lineKey_mkField _ _ (by decide) (by decide) (by decide)
  have kTs : lineKey (mkField (str "transcript_source") (yaml_str (str "yt-dlp"))) =
      some (str "transcript_source") := lineKey_mkField _ _ (by decide) (by decide) (by decide)
  have kTq : lineKey (mkField (str "transcript_quality") (yaml_str transcript_quality)) =
      some (str "transcript_quality") := lineKey_mkField _ _ (by decide) (by decide) (by decide)
  have gPeople : (str "people: []" != str "---") = true := by decide
  have gTopics : (str "topics:" != str "---") = true := by decide
  have gTags : (str "tags:" != str "---") = true := by decide
  have gYt : (str "  - \"YouTube\"" != str "---") = true := by decide
  have gYtb : (str "  - \"youtube\"" != str "---") = true := by decide
  have gStop : (str "---" != str "---") = false := by decide
  have kPeople : lineKey (str "people: []") = some (str "people") := by decide
  have kTopics : lineKey (str "topics:") = some (str "topics") := by decide
  have kTags : lineKey (str "tags:") = some (str "tags") := by decide
  have kYt : lineKey (str "  - \"YouTube\"") = none := by decide
  have kYtb : lineKey (str "  - \"youtube\"") = none := by decide
  by_cases htag : tags.isEmpty
  · rw [ytNoteLines.eq_def, if_pos htag]
    simp only [frontKeys, List.cons_append, List.nil_append, List.drop_succ_cons,
      List.drop_zero, List.takeWhile_cons, mkField_keep, gPeople, gTopics, gTags,
      gYt, gYtb, gStop, if_true, if_false, Bool.false_eq_true, ite_false, ite_true,
      List.filterMap_cons, kTitle, kSrcTy, kUrl, kCreated, kSrcDate, kDur, kLang,
      kUp, kDesc, kTs, kTq, kPeople, kTopics, kTags, kYt, kYtb, List.filterMap_nil]
  · rw [ytNoteLines.eq_def, if_neg htag]
    have hmap : ∀ a ∈ tags.map (fun tag => str "  - " ++ yaml_str tag),
        (a != str "---") = true := by
      intro a ha
      obtain ⟨t, _, rfl⟩ := List.mem_map.mp ha
      exact topicItem_keep _
    simp only [frontKeys, List.cons_append, List.nil_append, List.drop_succ_cons,
      List.drop_zero, List.takeWhile_cons, mkField_keep, gPeople, gTopics,
      if_true, ite_true]
    rw [List.takeWhile_append_of_pos hmap]
    simp only [List.takeWhile_cons, gTags, gYt, gStop, mkField_keep,
      if_true, if_false, Bool.false_eq_true, ite_false, ite_true,
      List.filterMap_cons, List.filterMap_append, filterMap_topicItems,
      kTitle, kSrcTy, kUrl, kCreated, kSrcDate, kDur, kLang, kUp, kDesc, kTs,
      kTq, kPeople, kTopics, kTags, kYt, List.nil_append, List.filterMap_nil]

/-! Claim theorems. -/

/-- C1 counterexample: on the two-cue scenario input the claim fails — the
line-preserved pipeline (`srt_to_text`) does not strip the `<i>` markup, so
the pair of outputs the claim asserts does not hold. -/
theorem C1_counterexample :
    ¬(clean_srt_to_text twoCueInput = str "Hello world Goodbye" ∧
      srt_to_text twoCueInput = str "Hello world\nGoodbye") := by decide

/-- C1 amended: the flattened transcript of the two-cue scenario is
`"Hello world Goodbye"`, but the line-preserved transcript is
`"Hello world\n<i>Goodbye</i>"` — inline angle-bracket markup is stripped
only by the flattened pipeline, not the line-preserved one. -/
theorem C1_amended :
    clean_srt_to_text twoCueInput = str "Hello world Goodbye" ∧
    srt_to_text twoCueInput = str "Hello world\n<i>Goodbye</i>" := by decide

/-- C2 counterexample: the non-empty, non-digits-only line
`see 00:00:01,000 here`, whose timestamp pattern occurs only after leading
text, is discarded (not kept) by the flattened pipeline
`clean_srt_to_text`, contradicting the claim that it is kept in both
pipelines. -/
theorem C2_counterexample :
    clean_srt_to_text [str "see 00:00:01,000 here"] = [] ∧
    str "see 00:00:01,000 here" ≠ [] ∧
    cueNumberMatch (str "see 00:00:01,000 here") = false := by decide

/-- C2 amended: a trimmed line that is non-empty, not digits-only, does not
start with the timestamp pattern but contains it somewhere later, is kept by
the line-preserved pipeline (`srt_to_text`, anchored `re.match`) and
discarded by the flattened pipeline (`clean_srt_to_text`, unanchored
`re.search`). -/
theorem C2_amended (line : List Char)
    (hne : (pyStrip line).isEmpty = false)
    (hcue : cueNumberMatch (pyStrip line) = false)
    (hat : timestampAt (pyStrip line) = false)
    (hsearch : timestampSearch (pyStrip line) = true) :
    srt_to_text [line] = pyStrip line ∧ clean_srt_to_text [line] = [] := by
  constructor
  · show joinWith ['\n'] (List.filterMap srtKeepLine [line]) = pyStrip line
    have hkeep : srtKeepLine line = some (pyStrip line) := by
      simp [srtKeepLine, hcue, hat, hne]
    rw [List.filterMap_cons, hkeep]
    rfl
  · have hnone : cleanKeepLine line = none := by
      simp [cleanKeepLine, hne, hcue, hsearch]
    show pyStrip (collapseWs (joinWith [' '] (List.filterMap cleanKeepLine [line]))) = []
    rw [List.filterMap_cons, hnone]
    rfl

/-- C2 witness: the amended claim at the concrete line
`see 00:00:01,000 here`. -/
theorem C2_witness :
    srt_to_text [str "see 00:00:01,000 here"] = pyStrip (str "see 00:00:01,000 here") ∧
    clean_srt_to_text [str "see 00:00:01,000 here"] = [] :=
  C2_amended (str "see 00:00:01,000 here") (by decide) (by decide) (by decide) (by decide)

/-- C3 counterexample: flattening is not idempotent — the caption line
`4<b>2</b>` flattens to `42`, and re-feeding `42` as a one-line caption file
discards it as a cue-number line, yielding the empty string. -/
theorem C3_counterexample :
    clean_srt_to_text [clean_srt_to_text [str "4<b>2</b>"]] ≠
      clean_srt_to_text [str "4<b>2</b>"] := by decide

/-- C3 amended: flattening is idempotent provided the flattened output would
itself survive the line filter: it is not a digits-only string, contains no
timestamp pattern, and is unchanged by markup stripping.  (The counterexample
shows the restriction is necessary.) -/
theorem C3_amended (lines : List (List Char))
    (h1 : cueNumberMatch (clean_srt_to_text lines) = false)
    (h2 : timestampSearch (clean_srt_to_text lines) = false)
    (h3 : stripTags (clean_srt_to_text lines) = clean_srt_to_text lines) :
    clean_srt_to_text [clean_srt_to_text lines] = clean_srt_to_text lines :=
  flatten_refeed lines h1 h2 h3

/-- C3 witness: the amended claim at a concrete two-line caption file. -/
theorem C3_witness :
    clean_srt_to_text [clean_srt_to_text [str "Hello world", str "1"]] =
      clean_srt_to_text [str "Hello world", str "1"] :=
  C3_amended [str "Hello world", str "1"] (by decide) (by decide) (by decide)

/-- C4 counterexample: with two matching caption files where the second is
more recently modified, the note-assembly pipeline (`srt_files[0]` in
`yt_to_wisdom_md.main`) extracts text from the first file, not the most
recently modified one as the claim requires of both pipelines. -/
theorem C4_counterexample :
    ytSelectSrt [srtA, srtB] = some srtA ∧
    mostRecentSrt [srtA, srtB] = some srtB ∧
    srtA ≠ srtB ∧ srtA.mtime < srtB.mtime ∧
    (ytTranscript [srtA, srtB]).1 = srt_to_text srtA.content := by decide

/-- C4 amended: only the pure-transcript pipeline
(`transcript_fetcher.download_and_process` via `mostRecentSrt`) selects a
file of maximal modification time; the note-assembly pipeline selects the
first file in glob order. -/
theorem C4_amended (f : SrtFile) (fs : List SrtFile) (m : SrtFile)
    (hm : mostRecentSrt (f :: fs) = some m) :
    m ∈ f :: fs ∧ (∀ g ∈ f :: fs, g.mtime ≤ m.mtime) ∧
    ytSelectSrt (f :: fs) = some f := by
  have hm2 : pyMaxBy (fun p => p.mtime) f fs = m := by
    simpa [mostRecentSrt] using hm
  refine ⟨?_, ?_, rfl⟩
  · rcases pyMaxBy_mem (fun p => p.mtime) fs f with h | h
    · rw [← hm2, h]; exact List.mem_cons_self f fs
    · rw [← hm2]; exact List.mem_cons_of_mem f h
  · intro g hg
    obtain ⟨ha, hb⟩ := pyMaxBy_ge (fun p => p.mtime) fs f
    rcases List.mem_cons.mp hg with h | h
    · rw [h, ← hm2]; exact ha
    · rw [← hm2]; exact hb g h

/-- C4 witness: the amended claim at the two concrete files. -/
theorem C4_witness :
    srtB ∈ [srtA, srtB] ∧ (∀ g ∈ [srtA, srtB], g.mtime ≤ srtB.mtime) ∧
    ytSelectSrt [srtA, srtB] = some srtA :=
  C4_amended srtA [srtB] srtB (by decide)

/-- C5: `normalize_date` maps `"20240115"` to `"2024-01-15"`, yields the
no-value result on the calendar-invalid `"20241301"`, on the empty string and
on absent input (never an exception — the model is a total function), and
passes every other non-empty non-8-digit string through unchanged. -/
theorem C5_normalize_date :
    normalize_date (some (str "20240115")) = some (str "2024-01-15") ∧
    normalize_date (some (str "20241301")) = none ∧
    normalize_date (some (str "")) = none ∧
    normalize_date none = none ∧
    ∀ s : List Char, s.isEmpty = false →
      (s.length = 8 && s.all Char.isDigit) = false →
      normalize_date (some s) = some s := by
  refine ⟨by decide, by decide, by decide, rfl, ?_⟩
  intro s h1 h2
  simp [normalize_date, h1, h2]

/-- C5 witness: the pass-through clause at `"circa 1999"`. -/
theorem C5_witness :
    normalize_date (some (str "circa 1999")) = some (str "circa 1999") :=
  C5_normalize_date.2.2.2.2 (str "circa 1999") (by decide) (by decide)

/-- C6: `slugify` (a total function in this model, hence deterministic and
never erroring) satisfies the three specified values. -/
theorem C6_slugify_values :
    slugify (str "") = str "video" ∧ slugify (str "!!!") = str "video" ∧
    slugify (str "  My Title!  ") = str "my-title" := by decide

/-- C10: `slugify` is idempotent — every output of `slugify` is a fixed
point of `slugify`. -/
theorem C10_slugify_idempotent (s : List Char) :
    slugify (slugify s) = slugify s :=
  slugify_fixes_output s

theorem getLast_append_of {α : Type} (L Y : List α) (b : α)
    (h : Y.getLast? = some b) : (L ++ Y).getLast? = some b := by
  rw [List.getLast?_append, h]
  rfl

/-- C7: when no caption file is found, note assembly does not abort —
provided the summarizer call (on the empty transcript) succeeds, the run
succeeds, the front matter contains `transcript_quality: "none"`, the note
body is exactly the summarizer's output on the empty-transcript input — and
the pure-transcript pipeline instead fails with `FileNotFoundError` and
produces no text artifact. -/
theorem C7_no_caption_degrades (meta : Meta) (url today : List Char)
    (summ : List Char → Except (List Char) (List Char)) (body t : List Char)
    (hs : summ (fabricInput (resolveTitle meta) []) = Except.ok body)
    (ht : t.isEmpty = false) :
    exOk (yt_main meta url today [] summ) = true ∧
    mkField (str "transcript_quality") (yaml_str (str "none")) ∈
      noteLinesOf (yt_main meta url today [] summ) ∧
    (noteLinesOf (yt_main meta url today [] summ)).getLast? = some body ∧
    download_and_process (some t) [] =
      Except.error (str "No English SRT subtitle file found.") := by
  have hrun : yt_main meta url today [] summ =
      Except.ok (today ++ str "--" ++ slugify (resolveTitle meta) ++ str ".md",
        ytNoteLines (resolveTitle meta) (pyOr meta.webpage_url url) today
          (normalize_date meta.upload_date) meta.duration
          (pyOr meta.language (str "en"))
          (pyOr (pyOrOpt meta.uploader meta.channel) (str "Unknown"))
          (meta.tags.getD []) (shortDesc (pyOr meta.description []))
          (str "none") body) := by
    simp only [yt_main]
    rw [show (ytTranscript ([] : List SrtFile)).1 = [] from rfl,
        show (ytTranscript ([] : List SrtFile)).2 = str "none" from rfl, hs]
  refine ⟨by rw [hrun]; rfl, ?_, ?_, ?_⟩
  · rw [hrun]
    show mkField (str "transcript_quality") (yaml_str (str "none")) ∈
      ytNoteLines (resolveTitle meta) (pyOr meta.webpage_url url) today
        (normalize_date meta.upload_date) meta.duration
        (pyOr meta.language (str "en"))
        (pyOr (pyOrOpt meta.uploader meta.channel) (str "Unknown"))
        (meta.tags.getD []) (shortDesc (pyOr meta.description []))
        (str "none") body
    rw [ytNoteLines.eq_def]
    simp [List.mem_append]
  · rw [hrun]
    show (ytNoteLines (resolveTitle meta) (pyOr meta.webpage_url url) today
        (normalize_date meta.upload_date) meta.duration
        (pyOr meta.language (str "en"))
        (pyOr (pyOrOpt meta.uploader meta.channel) (str "Unknown"))
        (meta.tags.getD []) (shortDesc (pyOr meta.description []))
        (str "none") body).getLast? = some body
    rw [ytNoteLines.eq_def]
    apply getLast_append_of
    simp [List.getLast?_cons_cons]
  · simp [download_and_process, pyTruthyOpt, ht, mostRecentSrt]

/-- C7 witness: the concrete run with empty metadata, no caption files and a
succeeding summarizer stub. -/
theorem C7_witness :
    exOk (yt_main metaW [] [] [] summOk) = true ∧
    mkField (str "transcript_quality") (yaml_str (str "none")) ∈
      noteLinesOf (yt_main metaW [] [] [] summOk) ∧
    (noteLinesOf (yt_main metaW [] [] [] summOk)).getLast? = some (str "B") ∧
    download_and_process (some (str "T")) [] =
      Except.error (str "No English SRT subtitle file found.") :=
  C7_no_caption_degrades metaW [] [] summOk (str "B") (str "T") rfl rfl

/-- C8: if the summarizer invocation fails, `yt_main` propagates the error
and returns no note at all — the note file name and contents exist only in
the success result, and the single whole-buffer write happens only then, so
no (even partial) Markdown note is produced. -/
theorem C8_summarizer_failure_aborts (meta : Meta) (url today : List Char)
    (files : List SrtFile)
    (summ : List Char → Except (List Char) (List Char)) (e : List Char)
    (hs : summ (fabricInput (resolveTitle meta) (ytTranscript files).1) =
      Except.error e) :
    yt_main meta url today files summ = Except.error e := by
  simp only [yt_main]
  rw [hs]

/-- C8 witness: the concrete run with a failing summarizer stub. -/
theorem C8_witness :
    yt_main metaW [] [] [] summErr = Except.error (str "boom") :=
  C8_summarizer_failure_aborts metaW [] [] [] summErr (str "boom") rfl

/-- C9: every note produced by a successful `yt_main` run has exactly the
fourteen specified front-matter keys, each once, in the specified order. -/
theorem C9_front_matter_keys (meta : Meta) (url today : List Char)
    (files : List SrtFile)
    (summ : List Char → Except (List Char) (List Char))
    (hok : exOk (yt_main meta url today files summ) = true) :
    frontKeys (noteLinesOf (yt_main meta url today files summ)) =
    [str "title", str "source_type", str "original_url", str "created",
     str "source_date", str "duration_seconds", str "language", str "uploader",
     str "people", str "topics", str "tags", str "description",
     str "transcript_source", str "transcript_quality"] := by
  cases hm : summ (fabricInput (resolveTitle meta) (ytTranscript files).1) with
  | error e =>
    exfalso
    have hbad : yt_main meta url today files summ = Except.error e := by
      simp only [yt_main]
      rw [hm]
    rw [hbad] at hok
    exact absurd hok (by simp [exOk])
  | ok body =>
    have hrun : yt_main meta url today files summ =
        Except.ok (today ++ str "--" ++ slugify (resolveTitle meta) ++ str ".md",
          ytNoteLines (resolveTitle meta) (pyOr meta.webpage_url url) today
            (normalize_date meta.upload_date) meta.duration
            (pyOr meta.language (str "en"))
            (pyOr (pyOrOpt meta.uploader meta.channel) (str "Unknown"))
            (meta.tags.getD []) (shortDesc (pyOr meta.description []))
            (ytTranscript files).2 body) := by
      simp only [yt_main]
      rw [hm]
    rw [hrun]
    exact frontKeys_ytNoteLines _ _ _ _ _ _ _ _ _ _ _

/-- C9 witness: the key list of the concrete run with empty metadata and a
succeeding summarizer stub. -/
theorem C9_witness :
    frontKeys (noteLinesOf (yt_main metaW [] [] [] summOk)) =
    [str "title", str "source_type", str "original_url", str "created",
     str "source_date", str "duration_seconds", str "language", str "uploader",
     str "people", str "topics", str "tags", str "description",
     str "transcript_source", str "transcript_quality"] :=
  C9_front_matter_keys metaW [] [] [] summOk rfl
